import Mathlib

/-!
Verification of the openclaw node-side protocol slice: environment
sanitization, process-spawn resolution, the capability/command registry,
invoke-result encoding, invoke error mapping, and the CDP proxy-bypass
helpers.  Environments and JSON-like objects are modelled as association
lists from `String` keys; key lookup takes the first matching entry.
-/

namespace Openclaw

/-- Association-list lookup by key: the first entry whose key equals `k`. -/
def assocGet {α : Type} (l : List (String × α)) (k : String) : Option α :=
  match l with
  | [] => none
  | (k1, v) :: rest => if k1 = k then some v else assocGet rest k

/-- An environment-variable map (process environment or override map). -/
def Env : Type := List (String × String)

/-- Value of variable `k` in environment `e` (`none` when unset). -/
def envGet (e : Env) (k : String) : Option String :=
  assocGet e k

/-- Set variable `k` to `v`, replacing an existing binding in place. -/
def envSet (e : Env) (k v : String) : Env :=
  match e with
  | [] => [(k, v)]
  | (k1, v1) :: rest => if k1 = k then (k, v) :: rest else (k1, v1) :: envSet rest k v

/-- Delete every binding of variable `k`. -/
def envDel (e : Env) (k : String) : Env :=
  e.filter (fun kv => !(kv.1 = k : Bool))

/-- Membership in the fixed danger deny-list stripped from both the inherited
environment and any override: interpreter path-injection vectors
(dynamic-library preload, script-interpreter path, shell startup-file, shell
trace/debug variables). -/
def isDangerousEnvKey (k : String) : Bool :=
  (k = "LD_PRELOAD" : Bool) || (k = "PYTHONPATH" : Bool) || (k = "BASH_ENV" : Bool)
    || (k = "SHELLOPTS" : Bool) || (k = "PS4" : Bool)

/-- Membership in the override-only deny-list: keys that pass through from
the inherited environment but whose override is silently rejected (home
directory, shell dotfile directory). -/
def isOverrideOnlyDeniedKey (k : String) : Bool :=
  (k = "HOME" : Bool) || (k = "ZDOTDIR" : Bool)

/-- Apply an override list to a base environment, overrides replacing
inherited bindings key by key. -/
def applyOverrides (overrides : Env) (base : Env) : Env :=
  overrides.foldr (fun kv acc => envSet acc kv.1 kv.2) base

/-- An override key the sanitizer accepts: not `PATH`, not override-only
denied, not on the danger deny-list. -/
def allowedOverrideKey (k : String) : Bool :=
  !(k = "PATH" : Bool) && !(isOverrideOnlyDeniedKey k) && !(isDangerousEnvKey k)

/-- An inherited key the sanitizer keeps: anything off the danger
deny-list. -/
def keptInheritedKey (k : String) : Bool :=
  !(isDangerousEnvKey k)

/-- Modelled from the spec: `sanitizeEnv` (src/node-host/invoke.ts is not in
the source snapshot; only its tests are).  Per the spec's Environment
Sanitizer contract: the fixed deny-list is stripped from both sources, `PATH`
overrides are always ignored in favour of the inherited `PATH`, override-only
denied keys pass through from the inherited environment while any override
attempt for them is silently rejected, and every other override replaces the
inherited value. -/
def sanitizeEnv (overrides : Env) (inherited : Env) : Env :=
  applyOverrides
    (overrides.filter (fun kv => allowedOverrideKey kv.1))
    (inherited.filter (fun kv => keptInheritedKey kv.1))

/-- Shape of a resolved process-spawn invocation: concrete command path,
arguments, shell mode, and the Windows hide-window flag. -/
structure SpawnInvocation where
  command : String
  args : List String
  shell : Option Bool
  windowsHide : Option Bool
deriving DecidableEq

/-- Inputs to spawn resolution: target platform, `PATH` directories in search
order, `PATHEXT` extensions in order, and the set of existing files
(abstracting the filesystem). -/
structure SpawnContext where
  platform : String
  pathDirs : List String
  pathExts : List String
  files : List String

/-- Character-wise ASCII lowercasing, mirroring the case folding used for
Windows path comparison. -/
def lowerStr (s : String) : String :=
  String.mk (s.data.map Char.toLower)

/-- An extension that resolves to a shell-script wrapper rather than a direct
binary. -/
def isShellScriptExt (ext : String) : Bool :=
  (lowerStr ext = ".cmd" : Bool) || (lowerStr ext = ".bat" : Bool)

/-- Case-insensitive file-existence check, as Windows path resolution is
case-insensitive. -/
def fileExistsCI (files : List String) (p : String) : Bool :=
  files.any (fun f => (lowerStr f = lowerStr p : Bool))

/-- Existing executable candidates for `name`, as (path, extension) pairs in
`PATH`-major, `PATHEXT`-minor order. -/
def windowsCandidates (ctx : SpawnContext) (name : String) : List (String × String) :=
  (ctx.pathDirs.map (fun d =>
    ctx.pathExts.filterMap (fun ext =>
      let p := d ++ "\\" ++ name ++ lowerStr ext
      if fileExistsCI ctx.files p then some (p, ext) else none))).flatten

/-- Modelled from the spec: `resolveDockerSpawnInvocation`
(src/agents/sandbox/docker.ts is not in the source snapshot; only its test
is).  Non-Windows platforms pass the logical command through unchanged and
never invoke a shell.  On Windows, `PATH` x `PATHEXT` is searched; a direct
binary candidate is preferred and invoked with shell mode unset and the
hide-window flag set; otherwise a shell-script wrapper is invoked with shell
mode set and no hide flag; with no candidate at all, a command-not-found
error is signalled. -/
def resolveDockerSpawnInvocation (args : List String) (ctx : SpawnContext) :
    Except String SpawnInvocation :=
  if ctx.platform ≠ "win32" then
    .ok { command := "docker", args := args, shell := none, windowsHide := none }
  else
    let cands := windowsCandidates ctx "docker"
    match cands.find? (fun c => !(isShellScriptExt c.2)) with
    | some c => .ok { command := c.1, args := args, shell := none, windowsHide := some true }
    | none =>
      match cands with
      | c :: _ => .ok { command := c.1, args := args, shell := some true, windowsHide := none }
      | [] => .error "docker executable not found in PATH"

/-- The `PATHEXT` list used by the Windows docker-resolution scenarios. -/
def dockerWindowsTestExts : List String := [".CMD", ".EXE", ".BAT"]

/-- Windows context whose `PATH` directory holds both docker.exe and a
docker.cmd wrapper. -/
def ctxDockerBothKinds : SpawnContext :=
  { platform := "win32", pathDirs := ["C:\\tools"], pathExts := dockerWindowsTestExts,
    files := ["C:\\tools\\docker.exe", "C:\\tools\\docker.cmd"] }

/-- Windows context whose `PATH` directory holds only the docker.cmd
wrapper. -/
def ctxDockerCmdOnly : SpawnContext :=
  { platform := "win32", pathDirs := ["C:\\tools"], pathExts := dockerWindowsTestExts,
    files := ["C:\\tools\\docker.cmd"] }

/-- Runtime feature-availability flags gating capability and command
advertisement. -/
structure NodeRuntimeFlags where
  cameraEnabled : Bool
  locationEnabled : Bool
  smsAvailable : Bool
  voiceWakeEnabled : Bool
  motionActivityAvailable : Bool
  motionPedometerAvailable : Bool
  debugBuild : Bool

/-- The always-on core command identifiers. -/
def coreCommands : List String :=
  ["device.status", "device.info", "device.permissions", "device.health",
   "notifications.list", "notifications.actions", "system.notify",
   "photos.latest", "contacts.search", "contacts.add",
   "calendar.events", "calendar.add", "app.update"]

/-- Commands gated on camera availability. -/
def cameraCommands : List String := ["camera.snap", "camera.clip", "camera.list"]

/-- Commands gated on location availability. -/
def locationCommands : List String := ["location.get"]

/-- Commands gated on SMS availability. -/
def smsCommands : List String := ["sms.send"]

/-- The motion command gated on motion-activity availability. -/
def motionActivityCommand : String := "motion.activity"

/-- The motion command gated separately on pedometer availability. -/
def motionPedometerCommand : String := "motion.pedometer"

/-- The fixed debug-only command set, advertised only on debug builds. -/
def debugOnlyCommands : List String := ["debug.logs", "debug.ed25519"]

/-- Modelled from the spec: `InvokeCommandRegistry.advertisedCommands` (the
Android registry implementation is not in the source snapshot; only its test
is).  Returns the always-on core command set unioned with each optional
command group whose gating flag is true, plus the fixed debug-only command
set when `debugBuild` is true; the two motion commands are gated per-command
by their own flags. -/
def advertisedCommands (f : NodeRuntimeFlags) : List String :=
  coreCommands
    ++ (if f.cameraEnabled then cameraCommands else [])
    ++ (if f.locationEnabled then locationCommands else [])
    ++ (if f.smsAvailable then smsCommands else [])
    ++ (if f.motionActivityAvailable then [motionActivityCommand] else [])
    ++ (if f.motionPedometerAvailable then [motionPedometerCommand] else [])
    ++ (if f.debugBuild then debugOnlyCommands else [])

/-- Flags snapshot with motion activity available but the pedometer (and
everything else optional) unavailable. -/
def motionActivityOnlyFlags : NodeRuntimeFlags :=
  { cameraEnabled := false, locationEnabled := false, smsAvailable := false,
    voiceWakeEnabled := false, motionActivityAvailable := true,
    motionPedometerAvailable := false, debugBuild := false }

/-- Flags snapshot for a debug build with every optional feature
unavailable. -/
def debugBuildOnlyFlags : NodeRuntimeFlags :=
  { cameraEnabled := false, locationEnabled := false, smsAvailable := false,
    voiceWakeEnabled := false, motionActivityAvailable := false,
    motionPedometerAvailable := false, debugBuild := true }

/-- A JSON-like tree of plain values. -/
inductive JVal where
  | null
  | bool (b : Bool)
  | num (n : Int)
  | str (s : String)
  | arr (items : List JVal)
  | obj (fields : List (String × JVal))

/-- Structured invoke error: machine-readable code plus human message. -/
structure InvokeErrorObj where
  code : String
  message : String

/-- The identifying fields of an invoke request needed to encode its
result. -/
structure NodeInvokeRequestMeta where
  id : String
  nodeId : String
  command : String

/-- An invoke outcome prior to wire encoding.  `none` stands for an absent
(null or undefined) optional field. -/
structure NodeInvokeResult where
  ok : Bool
  payload : Option JVal
  payloadJSON : Option String
  error : Option InvokeErrorObj

/-- Modelled from the spec: `buildNodeInvokeResultParams`
(src/node-host/runner.ts is not in the source snapshot; only its test is).
Encodes a node.invoke.result params object; absent (null or undefined)
optional fields are omitted keys, never encoded as JSON null. -/
def buildNodeInvokeResultParams (req : NodeInvokeRequestMeta) (res : NodeInvokeResult) :
    List (String × JVal) :=
  [("id", JVal.str req.id), ("nodeId", JVal.str req.nodeId), ("ok", JVal.bool res.ok)]
    ++ (match res.payload with
        | some JVal.null => []
        | some v => [("payload", v)]
        | none => [])
    ++ (match res.payloadJSON with
        | some s => [("payloadJSON", JVal.str s)]
        | none => [])
    ++ (match res.error with
        | some e =>
          [("error", JVal.obj [("code", JVal.str e.code), ("message", JVal.str e.message)])]
        | none => [])

/-- Characters allowed in an error-code prefix: uppercase letters and
underscores. -/
def isInvokeErrorCodeChar (c : Char) : Bool :=
  c.isUpper || (c = '_' : Bool)

/-- The generic fallback error code used when a failure message carries no
code prefix. -/
def genericInvokeErrorCode : String := "INVOKE_FAILED"

/-- Modelled from the spec: the invoke dispatcher's error mapping (the
GatewaySession implementation is not in the source snapshot; only its test
is).  A message of the form CODE-colon-space-text, with CODE a nonempty run
of uppercase letters and underscores, is split into the code and the text
after the separator; any other message becomes the whole error message under
the generic fallback code. -/
def parseInvokeErrorMessage (m : String) : InvokeErrorObj :=
  let cs := m.data
  let p := cs.takeWhile isInvokeErrorCodeChar
  match cs.drop p.length with
  | ':' :: ' ' :: tail =>
    if p.isEmpty then { code := genericInvokeErrorCode, message := m }
    else { code := String.mk p, message := String.mk tail }
  | _ => { code := genericInvokeErrorCode, message := m }

/-- Whether a failure message carries a well-formed code prefix. -/
def isCodePrefixedMessage (m : String) : Bool :=
  let cs := m.data
  let p := cs.takeWhile isInvokeErrorCodeChar
  match cs.drop p.length with
  | ':' :: ' ' :: _ => !p.isEmpty
  | _ => false

/-- The normalized invoke result produced when a handler fails with message
`m`. -/
def invokeResultOfFailure (m : String) : NodeInvokeResult :=
  { ok := false, payload := none, payloadJSON := none,
    error := some (parseInvokeErrorMessage m) }

/-- An inbound node.invoke.request event payload. -/
structure NodeInvokeEvent where
  id : String
  nodeId : String
  command : String
  params : Option JVal
  paramsJSON : Option String
  timeoutMs : Nat

/-- Modelled from the spec: the GatewaySession's selection of invoke
parameters (the session implementation is not in the source snapshot; only
its test is).  When `paramsJSON` is present it wins and is forwarded
verbatim; otherwise the `params` tree is serialized, abstracted here by the
`encode` parameter. -/
def deliveredParamsJson (encode : JVal → String) (ev : NodeInvokeEvent) :
    Option String :=
  match ev.paramsJSON with
  | some s => some s
  | none => ev.params.map encode

/-- The proxy-related environment variables that can interfere with loopback
connections (src/browser/cdp-proxy-bypass.ts). -/
def proxyEnvKeys : List String :=
  ["HTTP_PROXY", "http_proxy", "HTTPS_PROXY", "https_proxy", "ALL_PROXY", "all_proxy"]

/-- JavaScript truthiness of an environment value: set and nonempty. -/
def isTruthyEnvValue (v : Option String) : Bool :=
  match v with
  | some s => !(s = "" : Bool)
  | none => false

/-- Whether any proxy-related env var is set
(src/browser/cdp-proxy-bypass.ts `hasProxyEnv`). -/
def hasProxyEnv (e : Env) : Bool :=
  proxyEnvKeys.any (fun k => isTruthyEnvValue (envGet e k))

/-- Substring test, mirroring JavaScript `String.prototype.includes`. -/
def containsSubstring (s pat : String) : Bool :=
  match s.splitOn pat with
  | _ :: _ :: _ => true
  | _ => false

/-- The loopback entries appended to NO_PROXY
(src/browser/cdp-proxy-bypass.ts). -/
def loopbackNoProxyEntries : String := "localhost,127.0.0.1,[::1]"

/-- Restore one environment variable to a saved prior value: re-set it when
it was previously set, delete it when it was previously unset. -/
def envRestore (e : Env) (k : String) (orig : Option String) : Env :=
  match orig with
  | some v => envSet e k v
  | none => envDel e k

/-- JavaScript `a || b || ""` over possibly-unset strings: the first set,
nonempty value, else the empty string. -/
def jsOrElseString (a b : Option String) : String :=
  match a with
  | some s => if s = "" then (match b with | some t => t | none => "") else s
  | none => match b with | some t => t | none => ""

/-- src/browser/cdp-proxy-bypass.ts `withNoProxyForLocalhost`: when a proxy
env var is set, temporarily extend NO_PROXY and no_proxy with the loopback
entries (unless they already cover localhost), run the operation, and in a
guaranteed cleanup path restore both variables to their prior values —
re-setting a prior value and deleting a previously unset variable — whether
the operation returned normally (`Except.ok`) or raised (`Except.error`).
The operation is modelled as reading the mutated environment and producing a
normal or exceptional outcome. -/
def withNoProxyForLocalhost {E A : Type} (op : Env → Except E A) (env : Env) :
    Env × Except E A :=
  if !(hasProxyEnv env) then (env, op env)
  else
    let origNoProxy := envGet env "NO_PROXY"
    let origNoProxyLower := envGet env "no_proxy"
    let current := jsOrElseString origNoProxy origNoProxyLower
    let alreadyCoversLocalhost :=
      containsSubstring current "localhost" && containsSubstring current "127.0.0.1"
    let env1 :=
      if alreadyCoversLocalhost then env
      else
        let extended :=
          if current = "" then loopbackNoProxyEntries
          else current ++ "," ++ loopbackNoProxyEntries
        envSet (envSet env "NO_PROXY" extended) "no_proxy" extended
    let res := op env1
    let env2 := envRestore env1 "NO_PROXY" origNoProxy
    let env3 := envRestore env2 "no_proxy" origNoProxyLower
    (env3, res)

/-- Modelled from the spec: `isLoopbackHost` (src/gateway/net.ts is not in
the source snapshot): a loopback hostname is localhost, an IPv4 127.*
address, or IPv6 ::1 (bracketed, as produced by URL parsing). -/
def isLoopbackHost (host : String) : Bool :=
  (host = "localhost" : Bool) || (host = "::1" : Bool) || (host = "[::1]" : Bool)
    || host.startsWith "127."

/-- The two shared direct (never-proxied) agents of
src/browser/cdp-proxy-bypass.ts. -/
inductive CdpAgent where
  | directHttpAgent
  | directHttpsAgent
deriving DecidableEq

/-- The fields of a parsed URL consulted by `getDirectAgentForCdp`. -/
structure URLParts where
  protocol : String
  hostname : String

/-- src/browser/cdp-proxy-bypass.ts `getDirectAgentForCdp`: parse the URL
(parsing is abstracted by the fallible `parseURL` parameter; a JavaScript
`new URL` throw is `none`), return the shared direct HTTPS agent for loopback
https:/wss: targets, the shared direct HTTP agent for other loopback
targets, and `none` for everything else. -/
def getDirectAgentForCdp (parseURL : String → Option URLParts) (url : String) :
    Option CdpAgent :=
  match parseURL url with
  | none => none
  | some p =>
    if isLoopbackHost p.hostname then
      some (if (p.protocol = "https:" : Bool) || (p.protocol = "wss:" : Bool)
            then CdpAgent.directHttpsAgent
            else CdpAgent.directHttpAgent)
    else none

theorem assocGet_nil {α : Type} (k : String) : assocGet ([] : List (String × α)) k = none := rfl

theorem assocGet_cons {α : Type} (k1 : String) (v : α) (l : List (String × α)) (k : String) :
    assocGet ((k1, v) :: l) k = if k1 = k then some v else assocGet l k := rfl

theorem envGet_envSet (e : Env) (k v k1 : String) :
    envGet (envSet e k v) k1 = if k = k1 then some v else envGet e k1 := by
  induction e with
  | nil => simp [envGet, envSet, assocGet]
  | cons hd tl ih =>
    obtain ⟨a, b⟩ := hd
    by_cases h1 : a = k
    · subst h1
      by_cases h2 : a = k1
      · subst h2; simp [envSet, envGet, assocGet]
      · simp [envSet, envGet, assocGet, h2]
    · by_cases h2 : a = k1
      · subst h2
        have hk : ¬ k = a := fun hc => h1 hc.symm
        simp [envSet, envGet, assocGet, h1, hk]
      · simp [envGet, assocGet] at ih
        simp [envSet, envGet, assocGet, h1, h2, ih]

theorem envGet_filterKey (e : Env) (p : String → Bool) (k : String) :
    envGet (e.filter (fun kv => p kv.1)) k = if p k then envGet e k else none := by
  induction e with
  | nil => simp [envGet, assocGet]
  | cons hd tl ih =>
    obtain ⟨a, b⟩ := hd
    simp [envGet, assocGet] at ih
    by_cases hp : p a
    · by_cases hk : a = k
      · subst hk; simp [List.filter_cons, hp, envGet, assocGet, ih]
      · simp [List.filter_cons, hp, envGet, assocGet, hk, ih]
    · by_cases hk : a = k
      · subst hk; simp [List.filter_cons, hp, envGet, assocGet, ih]
      · simp [List.filter_cons, hp, envGet, assocGet, hk, ih]

theorem envGet_envDel (e : Env) (k k1 : String) :
    envGet (envDel e k) k1 = if k = k1 then none else envGet e k1 := by
  have h := envGet_filterKey e (fun s => !(s = k : Bool)) k1
  by_cases hk : k = k1
  · subst hk; simpa [envDel] using h
  · have hk1 : ¬ (k1 = k) := fun hc => hk hc.symm
    simpa [envDel, hk1, hk] using h

theorem envGet_applyOverrides (o base : Env) (k : String) :
    envGet (applyOverrides o base) k =
      (envGet o k).elim (envGet base k) some := by
  induction o with
  | nil => simp [applyOverrides, envGet, assocGet]
  | cons hd tl ih =>
    obtain ⟨a, b⟩ := hd
    simp only [applyOverrides, List.foldr] at ih ⊢
    rw [envGet_envSet]
    simp [envGet, assocGet] at ih
    by_cases h : a = k <;> simp [envGet, assocGet, h, ih]

theorem envGet_sanitizeEnv (o i : Env) (k : String) :
    envGet (sanitizeEnv o i) k =
      if isDangerousEnvKey k then none
      else if (k = "PATH" : Bool) || isOverrideOnlyDeniedKey k then envGet i k
      else (envGet o k).elim (envGet i k) some := by
  unfold sanitizeEnv
  rw [envGet_applyOverrides, envGet_filterKey o allowedOverrideKey k,
    envGet_filterKey i keptInheritedKey k]
  by_cases hd : isDangerousEnvKey k
  · simp [allowedOverrideKey, keptInheritedKey, hd]
  · by_cases hp : k = "PATH"
    · subst hp; simp [allowedOverrideKey, keptInheritedKey, hd]
    · by_cases ho : isOverrideOnlyDeniedKey k
      · simp [allowedOverrideKey, keptInheritedKey, hd, hp, ho]
      · simp [allowedOverrideKey, keptInheritedKey, hd, hp, ho]

/-- C1: for every override map and inherited environment, the sanitized
environment maps `PATH` and every override-only denied key (e.g. `HOME`,
`ZDOTDIR`) to exactly the inherited value: the override is silently rejected
and the inherited value passes through unmodified. -/
theorem sanitizeEnv_path_and_override_only_keys_inherit (o i : Env) (k : String)
    (hk : k = "PATH" ∨ isOverrideOnlyDeniedKey k = true) :
    envGet (sanitizeEnv o i) k = envGet i k := by
  rw [envGet_sanitizeEnv]
  have hdanger : isDangerousEnvKey k = false := by
    rcases hk with rfl | hmem
    · rfl
    · have hcases : k = "HOME" ∨ k = "ZDOTDIR" := by
        simpa [isOverrideOnlyDeniedKey] using hmem
      rcases hcases with rfl | rfl <;> rfl
  rcases hk with rfl | hmem
  · simp [hdanger]
  · simp [hdanger, hmem]

/-- Witness for C1 at the test scenario: a `PATH` override is rejected and
the inherited `PATH` wins. -/
theorem sanitizeEnv_path_and_override_only_keys_inherit_witness :
    envGet (sanitizeEnv [("PATH", "/tmp/evil:/usr/bin")] [("PATH", "/usr/bin")]) "PATH"
      = envGet [("PATH", "/usr/bin")] "PATH" :=
  sanitizeEnv_path_and_override_only_keys_inherit _ _ "PATH" (Or.inl rfl)

/-- C2: the sanitized environment contains no danger deny-list key, from
either source; every other key outside the `PATH`/override-only carve-outs
takes the override value when overridden and the inherited value
otherwise. -/
theorem sanitizeEnv_strips_danger_keys_and_merges (o i : Env) :
    (∀ k, isDangerousEnvKey k = true → envGet (sanitizeEnv o i) k = none) ∧
    (∀ k, isDangerousEnvKey k = false → k ≠ "PATH" →
      isOverrideOnlyDeniedKey k = false →
      envGet (sanitizeEnv o i) k = (envGet o k).elim (envGet i k) some) := by
  constructor
  · intro k hk
    rw [envGet_sanitizeEnv]
    simp [hk]
  · intro k h1 h2 h3
    rw [envGet_sanitizeEnv]
    simp [h1, h2, h3]

/-- Witness for C2 at the test scenario: a dangerous override (`PS4`) and a
dangerous inherited key (`BASH_ENV`) are both stripped while an ordinary
override (`FOO`) wins. -/
theorem sanitizeEnv_strips_danger_keys_and_merges_witness :
    envGet (sanitizeEnv [("PS4", "boom"), ("FOO", "bar")]
        [("PATH", "/usr/bin"), ("BASH_ENV", "/tmp/pwn.sh")]) "PS4" = none ∧
    envGet (sanitizeEnv [("PS4", "boom"), ("FOO", "bar")]
        [("PATH", "/usr/bin"), ("BASH_ENV", "/tmp/pwn.sh")]) "BASH_ENV" = none ∧
    envGet (sanitizeEnv [("PS4", "boom"), ("FOO", "bar")]
        [("PATH", "/usr/bin"), ("BASH_ENV", "/tmp/pwn.sh")]) "FOO"
      = (envGet [("PS4", "boom"), ("FOO", "bar")] "FOO").elim
          (envGet [("PATH", "/usr/bin"), ("BASH_ENV", "/tmp/pwn.sh")] "FOO") some :=
  ⟨(sanitizeEnv_strips_danger_keys_and_merges _ _).1 "PS4" (by decide),
   (sanitizeEnv_strips_danger_keys_and_merges _ _).1 "BASH_ENV" (by decide),
   (sanitizeEnv_strips_danger_keys_and_merges _ _).2 "FOO" (by decide) (by decide) (by decide)⟩

/-- C3: on Windows, with both docker.exe and the docker.cmd wrapper on
`PATH`, the resolver returns the .exe path with shell mode unset and the
hide-window flag set; with only docker.cmd, it returns the wrapper path with
shell mode set and the hide-window flag unset. -/
theorem resolveDockerSpawnInvocation_windows_prefers_exe (args : List String) :
    resolveDockerSpawnInvocation args ctxDockerBothKinds =
      Except.ok { command := "C:\\tools\\docker.exe", args := args,
                  shell := none, windowsHide := some true } ∧
    resolveDockerSpawnInvocation args ctxDockerCmdOnly =
      Except.ok { command := "C:\\tools\\docker.cmd", args := args,
                  shell := some true, windowsHide := none } :=
  ⟨rfl, rfl⟩

/-- C5: gating is per-command, not per-capability-group: with only
motion-activity available, the activity command is advertised and the
pedometer command is not. -/
theorem advertisedCommands_motion_gating_is_per_command :
    motionActivityCommand ∈ advertisedCommands motionActivityOnlyFlags ∧
    motionPedometerCommand ∉ advertisedCommands motionActivityOnlyFlags := by
  constructor <;> decide

theorem mem_if_nil {α : Type} (x : α) (b : Bool) (l : List α) :
    (x ∈ if b then l else []) ↔ (b = true ∧ x ∈ l) := by
  cases b <;> simp

/-- C4: no debug-only command is advertised when `debugBuild` is false, and
the fixed debug-only command set is unioned in when `debugBuild` is true. -/
theorem advertisedCommands_debug_only_gating (f : NodeRuntimeFlags) :
    (f.debugBuild = false → ∀ c ∈ debugOnlyCommands, c ∉ advertisedCommands f) ∧
    (f.debugBuild = true → ∀ c ∈ debugOnlyCommands, c ∈ advertisedCommands f) := by
  constructor
  · intro hdeb c hc
    have hc2 : c = "debug.logs" ∨ c = "debug.ed25519" := by
      simpa [debugOnlyCommands] using hc
    rcases hc2 with rfl | rfl <;>
      simp [advertisedCommands, hdeb, mem_if_nil, coreCommands, cameraCommands,
        locationCommands, smsCommands, motionActivityCommand, motionPedometerCommand]
  · intro hdeb c hc
    simp only [advertisedCommands]
    exact List.mem_append_right _ (by simpa [hdeb] using hc)

/-- Witness for C4: `debug.logs` is absent from a non-debug snapshot and
present on a debug build. -/
theorem advertisedCommands_debug_only_gating_witness :
    "debug.logs" ∉ advertisedCommands motionActivityOnlyFlags ∧
    "debug.logs" ∈ advertisedCommands debugBuildOnlyFlags :=
  ⟨(advertisedCommands_debug_only_gating motionActivityOnlyFlags).1 rfl
      "debug.logs" (by decide),
   (advertisedCommands_debug_only_gating debugBuildOnlyFlags).2 rfl
      "debug.logs" (by decide)⟩

/-- C6: the encoded node.invoke.result params object omits each absent
optional field entirely — the key is not present — and never encodes a JSON
null. -/
theorem buildNodeInvokeResultParams_omits_absent_fields (req : NodeInvokeRequestMeta)
    (res : NodeInvokeResult) :
    ((res.payload = none ∨ res.payload = some JVal.null) →
      assocGet (buildNodeInvokeResultParams req res) "payload" = none) ∧
    (res.payloadJSON = none →
      assocGet (buildNodeInvokeResultParams req res) "payloadJSON" = none) ∧
    (res.error = none →
      assocGet (buildNodeInvokeResultParams req res) "error" = none) ∧
    (∀ k, (k, JVal.null) ∉ buildNodeInvokeResultParams req res) := by
  obtain ⟨okv, payload, payloadJSON, error⟩ := res
  refine ⟨?_, ?_, ?_, ?_⟩
  · rintro (h | h) <;> simp only at h <;> subst h <;>
      cases payloadJSON <;> cases error <;>
      simp [buildNodeInvokeResultParams, assocGet]
  · intro h
    simp only at h
    subst h
    rcases payload with _ | jv
    · cases error <;> simp [buildNodeInvokeResultParams, assocGet]
    · cases jv <;> cases error <;> simp [buildNodeInvokeResultParams, assocGet]
  · intro h
    simp only at h
    subst h
    rcases payload with _ | jv
    · cases payloadJSON <;> simp [buildNodeInvokeResultParams, assocGet]
    · cases jv <;> cases payloadJSON <;> simp [buildNodeInvokeResultParams, assocGet]
  · intro k hmem
    rcases payload with _ | jv
    · cases payloadJSON <;> cases error <;>
        simp [buildNodeInvokeResultParams] at hmem
    · cases jv <;> cases payloadJSON <;> cases error <;>
        simp [buildNodeInvokeResultParams] at hmem

/-- Witness for C6 at the test scenario: with every optional field absent,
none of the optional keys appears in the encoded params. -/
theorem buildNodeInvokeResultParams_omits_absent_fields_witness :
    assocGet (buildNodeInvokeResultParams
      { id := "invoke-1", nodeId := "node-1", command := "system.run" }
      { ok := true, payload := none, payloadJSON := none, error := none }) "payload" = none ∧
    assocGet (buildNodeInvokeResultParams
      { id := "invoke-1", nodeId := "node-1", command := "system.run" }
      { ok := true, payload := none, payloadJSON := none, error := none }) "payloadJSON" = none ∧
    assocGet (buildNodeInvokeResultParams
      { id := "invoke-1", nodeId := "node-1", command := "system.run" }
      { ok := true, payload := none, payloadJSON := none, error := none }) "error" = none :=
  ⟨(buildNodeInvokeResultParams_omits_absent_fields _ _).1 (Or.inl rfl),
   (buildNodeInvokeResultParams_omits_absent_fields _ _).2.1 rfl,
   (buildNodeInvokeResultParams_omits_absent_fields _ _).2.2.1 rfl⟩

theorem takeWhile_append_of_all {p : Char → Bool} (l r : List Char)
    (h : ∀ c ∈ l, p c = true) :
    (l ++ r).takeWhile p = l ++ r.takeWhile p := by
  induction l with
  | nil => simp
  | cons a t ih =>
    have ha : p a = true := h a (by simp)
    have ht : ∀ c ∈ t, p c = true := fun c hc => h c (by simp [hc])
    simp [List.takeWhile_cons, ha, ih ht]

/-- C7: a failure message of the form CODE-colon-space-text, with CODE a
nonempty run of uppercase letters and underscores, yields an invoke result
with `ok=false`, `error.code` equal to CODE and `error.message` equal to the
text after the separator; a message without such a prefix becomes the whole
`error.message` under the generic fallback code. -/
theorem invokeResultOfFailure_maps_code_prefixed_messages (code human m : String) :
    (code ≠ "" → (∀ c ∈ code.data, isInvokeErrorCodeChar c = true) →
      invokeResultOfFailure (code ++ ": " ++ human) =
        { ok := false, payload := none, payloadJSON := none,
          error := some { code := code, message := human } }) ∧
    (isCodePrefixedMessage m = false →
      invokeResultOfFailure m =
        { ok := false, payload := none, payloadJSON := none,
          error := some { code := genericInvokeErrorCode, message := m } }) := by
  constructor
  · intro hne hall
    have hdata : (code ++ ": " ++ human).data = code.data ++ (':' :: ' ' :: human.data) := by
      simp [String.data_append]
    have hcolon : isInvokeErrorCodeChar ':' = false := by decide
    have htake : ((code ++ ": " ++ human).data).takeWhile isInvokeErrorCodeChar
        = code.data := by
      rw [hdata, takeWhile_append_of_all _ _ hall]
      simp [List.takeWhile_cons, hcolon]
    have hdrop : ((code ++ ": " ++ human).data).drop code.data.length
        = ':' :: ' ' :: human.data := by
      rw [hdata]; exact List.drop_left _ _
    have hempty : code.data.isEmpty = false := by
      cases hc : code.data with
      | nil =>
        exfalso
        apply hne
        cases code with
        | mk d => simp at hc; simp [hc]
      | cons a t => simp
    simp only [invokeResultOfFailure, parseInvokeErrorMessage, htake, hempty,
      Bool.false_eq_true, if_false]
    rw [hdrop]
    rfl
  · intro hnp
    simp only [invokeResultOfFailure, parseInvokeErrorMessage]
    simp only [isCodePrefixedMessage] at hnp
    split
    · rename_i tail heq
      rw [heq] at hnp
      simp at hnp
      simp [hnp]
    · rfl

/-- Witness for C7 at the test scenario: the camera-permission message is
split into code and human text, and an unprefixed message falls back to the
generic code. -/
theorem invokeResultOfFailure_maps_code_prefixed_messages_witness :
    invokeResultOfFailure "CAMERA_PERMISSION_REQUIRED: grant Camera permission" =
      { ok := false, payload := none, payloadJSON := none,
        error := some { code := "CAMERA_PERMISSION_REQUIRED", message := "grant Camera permission" } } ∧
    invokeResultOfFailure "boom" =
      { ok := false, payload := none, payloadJSON := none,
        error := some { code := genericInvokeErrorCode, message := "boom" } } :=
  ⟨(invokeResultOfFailure_maps_code_prefixed_messages
      "CAMERA_PERMISSION_REQUIRED" "grant Camera permission" "boom").1 (by decide) (by decide),
   (invokeResultOfFailure_maps_code_prefixed_messages
      "CAMERA_PERMISSION_REQUIRED" "grant Camera permission" "boom").2 (by decide)⟩

/-- C8: when an inbound node.invoke.request event carries `paramsJSON`, the
parameters delivered to the handler are exactly that verbatim string,
whatever the `params` tree holds and whatever serializer would have encoded
it. -/
theorem deliveredParamsJson_prefers_verbatim_paramsJSON (encode : JVal → String)
    (ev : NodeInvokeEvent) (s : String) (h : ev.paramsJSON = some s) :
    deliveredParamsJson encode ev = some s := by
  simp [deliveredParamsJson, h]

/-- Witness for C8 at the test scenario: with both `params` and `paramsJSON`
present, the verbatim `paramsJSON` string is delivered, not the serialized
tree. -/
theorem deliveredParamsJson_prefers_verbatim_paramsJSON_witness :
    deliveredParamsJson (fun _ => "serialized-tree")
      { id := "invoke-2", nodeId := "node-2", command := "debug.raw",
        params := some (JVal.obj [("ignored", JVal.num 1)]),
        paramsJSON := some "raw-json", timeoutMs := 5000 } = some "raw-json" :=
  deliveredParamsJson_prefers_verbatim_paramsJSON _ _ "raw-json" rfl

theorem envGet_envRestore (e : Env) (k0 : String) (orig : Option String) (k : String) :
    envGet (envRestore e k0 orig) k = if k0 = k then orig else envGet e k := by
  cases orig with
  | some v => simp [envRestore, envGet_envSet]
  | none => simp [envRestore, envGet_envDel]

/-- C9: `withNoProxyForLocalhost` leaves the environment component of its
outcome pointwise equal to the input environment: `NO_PROXY` and `no_proxy`
are restored to exactly their prior values (including deletion when
previously unset) and no other key is touched, whether the wrapped operation
returned `Except.ok` or `Except.error`. -/
theorem withNoProxyForLocalhost_restores_env {E A : Type} (op : Env → Except E A)
    (env : Env) (k : String) :
    envGet (withNoProxyForLocalhost op env).1 k = envGet env k := by
  by_cases hp : hasProxyEnv env
  · simp only [withNoProxyForLocalhost, hp, Bool.not_true, Bool.false_eq_true, if_false]
    rw [envGet_envRestore, envGet_envRestore]
    by_cases h2 : "no_proxy" = k
    · simp [h2]
    · by_cases h1 : "NO_PROXY" = k
      · simp [h1, h2]
      · simp only [h1, h2, if_false]
        split
        · rfl
        · rw [envGet_envSet, envGet_envSet]
          simp [h1, h2]
  · simp [withNoProxyForLocalhost, hp]

/-- C10: `getDirectAgentForCdp` is total: a parse failure or a non-loopback
hostname yields `none`; a loopback hostname yields the shared direct HTTPS
agent exactly when the protocol is https: or wss:, and the shared direct
HTTP agent otherwise. -/
theorem getDirectAgentForCdp_loopback_selection
    (parseURL : String → Option URLParts) (url : String) :
    (parseURL url = none → getDirectAgentForCdp parseURL url = none) ∧
    (∀ p, parseURL url = some p → isLoopbackHost p.hostname = false →
      getDirectAgentForCdp parseURL url = none) ∧
    (∀ p, parseURL url = some p → isLoopbackHost p.hostname = true →
      ((p.protocol = "https:" : Bool) || (p.protocol = "wss:" : Bool)) = true →
      getDirectAgentForCdp parseURL url = some CdpAgent.directHttpsAgent) ∧
    (∀ p, parseURL url = some p → isLoopbackHost p.hostname = true →
      ((p.protocol = "https:" : Bool) || (p.protocol = "wss:" : Bool)) = false →
      getDirectAgentForCdp parseURL url = some CdpAgent.directHttpAgent) := by
  refine ⟨?_, ?_, ?_, ?_⟩
  · intro h; simp [getDirectAgentForCdp, h]
  · intro p h hl; simp [getDirectAgentForCdp, h, hl]
  · intro p h hl hproto; simp [getDirectAgentForCdp, h, hl, hproto]
  · intro p h hl hproto; simp [getDirectAgentForCdp, h, hl, hproto]

/-- Witness for C10: a loopback ws:// URL gets the direct HTTP agent while
an unparseable string gets `none`. -/
theorem getDirectAgentForCdp_loopback_selection_witness :
    getDirectAgentForCdp
      (fun u => if u = "ws://[::1]:9222"
        then some { protocol := "ws:", hostname := "[::1]" } else none)
      "ws://[::1]:9222" = some CdpAgent.directHttpAgent ∧
    getDirectAgentForCdp
      (fun u => if u = "ws://[::1]:9222"
        then some { protocol := "ws:", hostname := "[::1]" } else none)
      "not-a-url" = none :=
  ⟨(getDirectAgentForCdp_loopback_selection _ _).2.2.2
      { protocol := "ws:", hostname := "[::1]" } (by simp) (by decide) (by decide),
   (getDirectAgentForCdp_loopback_selection _ _).1 (by simp)⟩

end Openclaw
